import Mathlib

/-!
Verification of the `funk` function-decoration toolkit (src/funk.py).

The source is a set of Python decorators that wrap a computation:

* `match (matches, result)`      — literal argument-tuple matcher;
* `match_pred (matches, result)` — per-position predicate matcher;
* `precondition (pred)`          — input contract, raises `ValueError`;
* `postcondition (pred)`         — output contract, raises `ValueError`;
* `memoize`                      — result cache keyed by the argument tuple;
* `lookup_table (*lookups)`      — one-shot pre-populated result table.

Shallow embedding: Python values that appear in the library's use are
integers and lists of integers (`PyVal`); an argument tuple is a `List
PyVal`; a computation is state-passing and fallible (`Comp σ`), where the
state `σ` threads the mutable closure cells (caches, tables, the generation
flag) plus any instrumentation the caller adds, so that an abstract "next
computation" can itself re-enter the wrapper — exactly how a decorated
Python function recurses into its own decorated name.  Python exceptions
become the `PyErr` error type of the `Except` monad.
-/

set_option autoImplicit false

namespace Funk

/-- A Python value, restricted to the shapes the library's calls use:
integers and (unhashable) lists of integers. -/
inductive PyVal where
  | int : Int → PyVal
  | pylist : List Int → PyVal
deriving DecidableEq, Repr

/-- Whether a value can be used as (part of) a `dict` key: Python integers
are hashable, Python lists are not. -/
def PyVal.hashable : PyVal → Bool
  | .int _ => true
  | .pylist _ => false

/-- A Python exception, restricted to the classes the library can raise:
`ValueError` (contracts), `TypeError` (unhashable dict key, bad operand),
`KeyError`, and stack exhaustion from unbounded recursion. -/
inductive PyErr where
  | valueError : String → PyErr
  | typeError : String → PyErr
  | keyError : String → PyErr
  | stackOverflow : PyErr
deriving DecidableEq, Repr

/-- `isinstance (e, KeyError)`: only `KeyError` itself is KeyError-class;
`TypeError` and `ValueError` are not `LookupError` subclasses. -/
def PyErr.isKeyErrorClass : PyErr → Bool
  | .keyError _ => true
  | _ => false

/-- The spec's `ContractViolation` error: the source realises it as a
Python `ValueError` carrying the message (funk.py lines 55 and 72). -/
def ContractViolation (msg : String) : PyErr :=
  PyErr.valueError msg

/-- An argument tuple: the ordered positional arguments of one call. -/
abbrev Args := List PyVal

/-- A tuple is usable as a `dict` key iff every component is hashable
(hashing a tuple hashes each element). -/
def argsHashable (args : Args) : Bool :=
  args.all PyVal.hashable

/-- A Python `dict` keyed by argument tuples, as an association list with
insert-overwrite semantics. -/
abbrev Dict := List (Args × PyVal)

/-- `d[k]` as an option: first (and only, keys are unique under
`dictSet`) binding for `k`. -/
def dictFind : Dict → Args → Option PyVal
  | [], _ => none
  | (k, v) :: rest, a => if k = a then some v else dictFind rest a

/-- `d[k] = v`: overwrite the binding for `k` when present, else append. -/
def dictSet : Dict → Args → PyVal → Dict
  | [], k, v => [(k, v)]
  | (k', v') :: rest, k, v =>
      if k' = k then (k, v) :: rest else (k', v') :: dictSet rest k v

/-- A (possibly stateful, fallible) computation: what a decorated Python
function denotes.  `σ` carries every mutable closure cell the call can
touch, so the computation a wrapper delegates to can re-enter the wrapper's
own state. -/
abbrev Comp (σ : Type) := Args → σ → Except PyErr (PyVal × σ)

/-! ## Literal matcher — funk.py lines 12-18

```python
def inner (*args, **kwargs):
    if args == matches:
        return result
    return f(*args, **kwargs)
```
-/

/-- The `inner` closure produced by `match (matches, result)` around `f`. -/
def matchInner {σ : Type} (matchTup : Args) (result : PyVal) (f : Comp σ) :
    Comp σ := fun args s =>
  if args = matchTup then .ok (result, s) else f args s

/-! ## Predicate matcher — funk.py lines 34-40

```python
def inner (*args, **kwargs):
    if all (match is None or match (arg) for match, arg in zip (matches, args)):
        return result
    return f(*args, **kwargs)
```
-/

/-- One configured entry: `none` is the wildcard (`None`), `some p` a
predicate on the argument at that position. -/
abbrev PredEntry := Option (PyVal → Bool)

/-- `match is None or match (arg)` for one zipped pair. -/
def entryHolds : PredEntry × PyVal → Bool
  | (none, _) => true
  | (some p, a) => p a

/-- The `inner` closure produced by `match_pred (matches, result)` around
`f`: `zip` pairs each configured entry with the argument at its position,
truncating at the shorter of the two. -/
def matchPredInner {σ : Type} (matchPreds : List PredEntry) (result : PyVal)
    (f : Comp σ) : Comp σ := fun args s =>
  if (matchPreds.zip args).all entryHolds then .ok (result, s) else f args s

/-! ## Contracts — funk.py lines 49-56 and 65-73

```python
def inner (*args, **kwargs):                      # precondition
    if pred (*args, **kwargs):
        return f(*args, **kwargs)
    else:
        raise ValueError ("Precondition not met on function %s!" % f.func_name)

def inner (*args, **kwargs):                      # postcondition
    result = f(*args, **kwargs)
    if pred (result):
        return result
    else:
        raise ValueError ("Postcondition not met on function %s!" % f.func_name)
```

`fname` stands for `f.func_name`, the wrapped function's name (preserved
through the decorator stack by `functools.wraps`).
-/

/-- The `inner` closure produced by `precondition (pred)` around `f`. -/
def preconditionInner {σ : Type} (pred : Args → Bool) (fname : String)
    (f : Comp σ) : Comp σ := fun args s =>
  if pred args then
    f args s
  else
    .error (ContractViolation ("Precondition not met on function " ++ fname ++ "!"))

/-- The `inner` closure produced by `postcondition (pred)` around `f`. -/
def postconditionInner {σ : Type} (pred : PyVal → Bool) (fname : String)
    (f : Comp σ) : Comp σ := fun args s =>
  match f args s with
  | .ok (result, s') =>
      if pred result then
        .ok (result, s')
      else
        .error (ContractViolation ("Postcondition not met on function " ++ fname ++ "!"))
  | .error e => .error e

/-! ## Memoizing cache — funk.py lines 84-91

```python
cache = {}
def inner (*args):
    if not args in cache:
        value = cache[args] = f(*args)
    else: value = cache[args]
    return value
```

The closure cell `cache` is the first component of the state; `ε` is
whatever further state the next computation `f` threads (its own closure
cells, an instrumentation counter, ...).  `args in cache` hashes the tuple
first, so an unhashable tuple raises `TypeError` before anything else; on
a miss, `f` runs first and the store happens on the state `f` returns,
which is how recursive re-entry through the growing cache works.
-/

/-- The `inner` closure produced by `memoize` around `f`. -/
def memoInner {ε : Type} (f : Comp (Dict × ε)) : Comp (Dict × ε) :=
  fun args s =>
    if argsHashable args then
      match dictFind s.1 args with
      | some v => .ok (v, s)
      | none =>
          match f args s with
          | .ok (v, s') => .ok (v, (dictSet s'.1 args v, s'.2))
          | .error e => .error e
    else
      .error (PyErr.typeError ("unhashable type"))

/-! ## Lookup table — funk.py lines 99-118

```python
table = {}
table_generated = [False]
def inner (*args, **kwargs):
    if not table_generated[0]:
        table_generated[0] = True
        for lookup in lookups:
            table[tuple (lookup)] = f(*lookup)

    if args in table:
        return table[args]
    else:
        return f(*args, **kwargs);
```
-/

/-- The wrapper's own closure cells: `table` and the `table_generated`
one-element list. -/
structure LTState where
  table : Dict
  generated : Bool
deriving DecidableEq, Repr

/-- The state the decorator creates at configuration time:
`table = ` empty dict, `table_generated = [False]`. -/
def ltInit : LTState :=
  { table := [], generated := false }

/-- The generation loop: for each seed tuple in configured order, run the
next computation `f` on it, then store the result under the tuple
(Python evaluates the right-hand side `f(*lookup)` before the
`table[tuple (lookup)] = ...` store, which hashes the key). -/
def ltGenerate {ε : Type} (f : Comp (LTState × ε)) :
    List Args → LTState × ε → Except PyErr (LTState × ε)
  | [], s => .ok s
  | l :: ls, s =>
      match f l s with
      | .ok (v, s') =>
          if argsHashable l then
            ltGenerate f ls ({ s'.1 with table := dictSet s'.1.table l v }, s'.2)
          else
            .error (PyErr.typeError ("unhashable type"))
      | .error e => .error e

/-- The post-generation half of `inner`: `if args in table: return
table[args] else: return f(*args, **kwargs)` (membership hashes `args`). -/
def ltDispatch {ε : Type} (f : Comp (LTState × ε)) (args : Args)
    (s : LTState × ε) : Except PyErr (PyVal × (LTState × ε)) :=
  if argsHashable args then
    match dictFind s.1.table args with
    | some v => .ok (v, s)
    | none => f args s
  else
    .error (PyErr.typeError ("unhashable type"))

/-- The `inner` closure produced by `lookup_table (*lookups)` around `f`:
on the first call the flag is flipped to generated *before* any seed entry
is computed, then the seeds run, then the table is consulted. -/
def ltInner {ε : Type} (lookups : List Args) (f : Comp (LTState × ε)) :
    Comp (LTState × ε) := fun args s =>
  if s.1.generated then
    ltDispatch f args s
  else
    match ltGenerate f lookups ({ s.1 with generated := true }, s.2) with
    | .ok s₁ => ltDispatch f args s₁
    | .error e => .error e

/-- A next computation instrumented with a call log: it returns `g args`,
never touches the wrapper's own `LTState`, and appends the argument tuple
it was invoked with to the trace.  This models a base computation plus the
spec's side-effect counter. -/
def fLog (g : Args → PyVal) : Comp (LTState × List Args) :=
  fun args s => .ok (g args, (s.1, s.2 ++ [args]))

/-! ## The decorated `fib_match` — funk.py lines 121-128

```python
@precondition (lambda x: x >= 0)
@postcondition (lambda x: x > 0)
@match ((0,), 1)
@match ((1,), 1)
def fib_match (n):
    return fib_match (n-1) + fib_match (n-2)
```

The body recurses through the rebound name, i.e. through the whole
decorator stack.  The embedding is fuelled: each nested invocation of the
wrapped entry point consumes one unit, and exhausting the fuel is Python's
stack exhaustion.
-/

/-- `lambda x: x >= 0` applied to the positional arguments. -/
def predNonneg : Args → Bool
  | [PyVal.int n] => decide (0 ≤ n)
  | _ => false

/-- `lambda x: x > 0` applied to the returned value. -/
def predPos : PyVal → Bool
  | PyVal.int n => decide (0 < n)
  | _ => false

/-- Python `+` on the values in play. -/
def pyAdd : PyVal → PyVal → Except PyErr PyVal
  | PyVal.int a, PyVal.int b => .ok (PyVal.int (a + b))
  | _, _ => .error (PyErr.typeError ("unsupported operand type"))

/-- The fully decorated `fib_match` entry point, with fuel. -/
def fibMatch : Nat → Comp Unit
  | 0 => fun _ _ => .error PyErr.stackOverflow
  | fuel + 1 =>
      preconditionInner predNonneg ("fib_match")
        (postconditionInner predPos ("fib_match")
          (matchInner [PyVal.int 0] (PyVal.int 1)
            (matchInner [PyVal.int 1] (PyVal.int 1)
              (fun args s =>
                match args with
                | [PyVal.int n] =>
                    match fibMatch fuel [PyVal.int (n - 1)] s with
                    | .ok (a, s₁) =>
                        match fibMatch fuel [PyVal.int (n - 2)] s₁ with
                        | .ok (b, s₂) =>
                            match pyAdd a b with
                            | .ok v => .ok (v, s₂)
                            | .error e => .error e
                        | .error e => .error e
                    | .error e => .error e
                | _ => .error (PyErr.typeError ("fib_match () takes exactly 1 argument"))))))

/-- Decidable equality of results, used to evaluate witnesses. -/
instance exceptDecEq {e a : Type} [DecidableEq e] [DecidableEq a] :
    DecidableEq (Except e a)
  | .ok x, .ok y => if h : x = y then .isTrue (by rw [h]) else .isFalse (by simp [h])
  | .ok _, .error _ => .isFalse (by simp)
  | .error _, .ok _ => .isFalse (by simp)
  | .error x, .error y => if h : x = y then .isTrue (by rw [h]) else .isFalse (by simp [h])

/-! ## Helper lemmas -/

/-- Storing under a key makes it the key's binding. -/
theorem dictFind_dictSet_self (d : Dict) (k : Args) (v : PyVal) :
    dictFind (dictSet d k v) k = some v := by
  induction d with
  | nil => simp [dictSet, dictFind]
  | cons p rest ih =>
      obtain ⟨k', v'⟩ := p
      by_cases h : k' = k
      · simp [dictSet, dictFind, h]
      · simp [dictSet, dictFind, h, ih]

/-- `zip` only reaches the prefix of the first list that has a partner in
the second. -/
theorem zip_take_length {α β : Type} :
    ∀ (ms : List α) (as : List β), ms.zip as = (ms.take as.length).zip as
  | [], _ => by simp
  | _ :: _, [] => by simp
  | m :: ms, a :: as => by
      simpa [List.zip_cons_cons] using zip_take_length ms as

/-- On lists where the first is no longer than the second, `all` over the
`zip` is the positionwise condition. -/
theorem zip_all_iff_get {α β : Type} (φ : α × β → Bool) :
    ∀ (ms : List α) (as : List β) (h : ms.length ≤ as.length),
      ((ms.zip as).all φ = true ↔
        ∀ i (hi : i < ms.length),
          φ (ms.get ⟨i, hi⟩, as.get ⟨i, lt_of_lt_of_le hi h⟩) = true)
  | [], as, h => by simp
  | m :: ms, [], h => by simp at h
  | m :: ms, a :: as, h => by
      have h' : ms.length ≤ as.length := by simpa using h
      have ih := zip_all_iff_get φ ms as h'
      simp only [List.zip_cons_cons, List.all_cons, Bool.and_eq_true, ih]
      constructor
      · rintro ⟨h0, hrest⟩ i hi
        match i with
        | 0 => simpa using h0
        | j + 1 => simpa using hrest j (by simpa using hi)
      · intro hall
        refine ⟨by simpa using hall 0 (by simp), fun j hj => ?_⟩
        simpa using hall (j + 1) (by simpa using hj)

/-! ## Claim theorems -/

/-- C3: for a configured Literal Matcher rule `(t, r)`, invoking with an
argument tuple exactly equal to `t` returns `r` without invoking the next
computation (the result and state do not depend on `f`); any other
argument tuple delegates to the next computation with the same arguments
and returns its result unchanged. -/
theorem match_literal_spec {σ : Type} (matchTup : Args) (r : PyVal)
    (f : Comp σ) (s : σ) :
    matchInner matchTup r f matchTup s = .ok (r, s)
  ∧ ∀ args, args ≠ matchTup → matchInner matchTup r f args s = f args s := by
  constructor
  · simp [matchInner]
  · intro args h
    simp [matchInner, h]

/-- Witness for C3: the rule `(0,) -> 1` over a base computation returning
`7` short-circuits on `(0,)` and delegates on `(5,)`. -/
theorem match_literal_spec_witness :
    matchInner (σ := Unit) [PyVal.int 0] (PyVal.int 1)
        (fun _ s => .ok (PyVal.int 7, s)) [PyVal.int 0] () = .ok (PyVal.int 1, ())
  ∧ matchInner (σ := Unit) [PyVal.int 0] (PyVal.int 1)
        (fun _ s => .ok (PyVal.int 7, s)) [PyVal.int 5] () = .ok (PyVal.int 7, ()) :=
  ⟨(match_literal_spec [PyVal.int 0] (PyVal.int 1)
      (fun _ s => .ok (PyVal.int 7, s)) ()).1,
   Eq.trans
     ((match_literal_spec [PyVal.int 0] (PyVal.int 1)
        (fun _ s => .ok (PyVal.int 7, s)) ()).2 [PyVal.int 5] (by decide)) rfl⟩

/-- C4: if the configured predicate applied to the arguments is false, the
precondition wrapper fails with the ContractViolation error naming the
wrapped computation and stating the precondition was not met, without
invoking the wrapped computation (the result does not depend on `f`); if
the predicate is true, it delegates and returns the wrapped computation's
result unchanged. -/
theorem precondition_spec {σ : Type} (pred : Args → Bool) (fname : String)
    (f : Comp σ) (args : Args) (s : σ) :
    (pred args = false →
      preconditionInner pred fname f args s
        = .error (ContractViolation
            ("Precondition not met on function " ++ fname ++ "!")))
  ∧ (pred args = true → preconditionInner pred fname f args s = f args s) := by
  constructor <;> intro h <;> simp [preconditionInner, h]

/-- Witness for C4: `lambda x: x >= 0` rejects `(-1,)` before the base
computation and admits `(2,)`. -/
theorem precondition_spec_witness :
    preconditionInner (σ := Unit) predNonneg "fib_match"
        (fun _ s => .ok (PyVal.int 3, s)) [PyVal.int (-1)] ()
      = .error (ContractViolation ("Precondition not met on function fib_match!"))
  ∧ preconditionInner (σ := Unit) predNonneg "fib_match"
        (fun _ s => .ok (PyVal.int 3, s)) [PyVal.int 2] () = .ok (PyVal.int 3, ()) :=
  ⟨(precondition_spec predNonneg "fib_match"
      (fun _ s => .ok (PyVal.int 3, s)) [PyVal.int (-1)] ()).1 (by decide),
   Eq.trans
     ((precondition_spec predNonneg "fib_match"
        (fun _ s => .ok (PyVal.int 3, s)) [PyVal.int 2] ()).2 (by decide)) rfl⟩

/-- C5: the postcondition wrapper invokes the wrapped computation first;
if the configured predicate on the returned result is false it fails with
the ContractViolation error and the result never reaches the caller; if
the predicate is true the result is returned unchanged (and an error of
the wrapped computation propagates unchanged). -/
theorem postcondition_spec {σ : Type} (pred : PyVal → Bool) (fname : String)
    (f : Comp σ) (args : Args) (s : σ) :
    (∀ v s', f args s = .ok (v, s') →
        (pred v = true → postconditionInner pred fname f args s = .ok (v, s'))
      ∧ (pred v = false →
          postconditionInner pred fname f args s
            = .error (ContractViolation
                ("Postcondition not met on function " ++ fname ++ "!"))))
  ∧ (∀ e, f args s = .error e →
      postconditionInner pred fname f args s = .error e) := by
  constructor
  · intro v s' hf
    constructor <;> intro hp <;> simp [postconditionInner, hf, hp]
  · intro e hf
    simp [postconditionInner, hf]

/-- Witness for C5: a base computation forced to return `0` fails
`lambda x: x > 0` and the caller sees only the ContractViolation; one
returning `3` passes and `3` is returned unchanged. -/
theorem postcondition_spec_witness :
    postconditionInner (σ := Unit) predPos "fib_match"
        (fun _ s => .ok (PyVal.int 0, s)) [PyVal.int 4] ()
      = .error (ContractViolation ("Postcondition not met on function fib_match!"))
  ∧ postconditionInner (σ := Unit) predPos "fib_match"
        (fun _ s => .ok (PyVal.int 3, s)) [PyVal.int 4] () = .ok (PyVal.int 3, ()) :=
  ⟨((postcondition_spec predPos "fib_match"
      (fun _ s => .ok (PyVal.int 0, s)) [PyVal.int 4] ()).1
        (PyVal.int 0) () rfl).2 (by decide),
   ((postcondition_spec predPos "fib_match"
      (fun _ s => .ok (PyVal.int 3, s)) [PyVal.int 4] ()).1
        (PyVal.int 3) () rfl).1 (by decide)⟩

/-- C7: on a call supplying an argument for every configured position, if
each configured entry is a wildcard or its predicate holds on the argument
at its position, the Predicate Matcher returns the configured result
without invoking the next computation; if any non-wildcard predicate fails
on its argument, the call delegates to the next computation instead. -/
theorem match_pred_spec {σ : Type} (matchPreds : List PredEntry) (r : PyVal)
    (f : Comp σ) (args : Args) (s : σ)
    (hlen : matchPreds.length ≤ args.length) :
    ((∀ i (hi : i < matchPreds.length),
        entryHolds (matchPreds.get ⟨i, hi⟩,
          args.get ⟨i, lt_of_lt_of_le hi hlen⟩) = true) →
      matchPredInner matchPreds r f args s = .ok (r, s))
  ∧ (∀ i (hi : i < matchPreds.length) (p : PyVal → Bool),
      matchPreds.get ⟨i, hi⟩ = some p →
      p (args.get ⟨i, lt_of_lt_of_le hi hlen⟩) = false →
      matchPredInner matchPreds r f args s = f args s) := by
  constructor
  · intro hall
    have := (zip_all_iff_get entryHolds matchPreds args hlen).mpr hall
    simp [matchPredInner, this]
  · intro i hi p hp hfail
    have hnot : ¬ (matchPreds.zip args).all entryHolds = true := by
      intro hall
      have := (zip_all_iff_get entryHolds matchPreds args hlen).mp hall i hi
      rw [hp] at this
      simp only [entryHolds, List.get_eq_getElem] at this hfail
      rw [hfail] at this
      simp at this
    simp [matchPredInner, hnot]

/-- Witness for C7: the rule `(lambda n: n > 0,) -> 1` short-circuits on
`(2,)` and delegates on `(0,)`, where the base computation returns `9`. -/
theorem match_pred_spec_witness :
    matchPredInner (σ := Unit) [some predPos] (PyVal.int 1)
        (fun _ s => .ok (PyVal.int 9, s)) [PyVal.int 2] () = .ok (PyVal.int 1, ())
  ∧ matchPredInner (σ := Unit) [some predPos] (PyVal.int 1)
        (fun _ s => .ok (PyVal.int 9, s)) [PyVal.int 0] () = .ok (PyVal.int 9, ()) :=
  ⟨(match_pred_spec [some predPos] (PyVal.int 1)
      (fun _ s => .ok (PyVal.int 9, s)) [PyVal.int 2] () (by decide)).1
        (by decide),
   Eq.trans
     ((match_pred_spec [some predPos] (PyVal.int 1)
        (fun _ s => .ok (PyVal.int 9, s)) [PyVal.int 0] () (by decide)).2
          0 (by decide) predPos rfl (by decide)) rfl⟩

/-- C10: the Predicate Matcher only examines positions present in both the
configured sequence and the call's argument tuple — entries beyond the
number of positional arguments are silently ignored (the behaviour equals
that of the configuration truncated to the call's arity), a zero-length
configuration matches every call, and a call with fewer arguments than
configured entries short-circuits with the configured result whenever
every entry of the overlapping prefix holds. -/
theorem match_pred_truncation {σ : Type} (matchPreds : List PredEntry)
    (r : PyVal) (f : Comp σ) (args : Args) (s : σ) :
    matchPredInner ([] : List PredEntry) r f args s = .ok (r, s)
  ∧ (args.length ≤ matchPreds.length →
      matchPredInner matchPreds r f args s
        = matchPredInner (matchPreds.take args.length) r f args s)
  ∧ (args.length < matchPreds.length →
      (matchPreds.zip args).all entryHolds = true →
      matchPredInner matchPreds r f args s = .ok (r, s)) := by
  refine ⟨by simp [matchPredInner], fun _ => ?_, fun _ hall => ?_⟩
  · rw [matchPredInner, matchPredInner, zip_take_length matchPreds args]
  · simp [matchPredInner, hall]

/-- Witness for C10: two configured entries against a one-argument call —
the second entry (which would fail on any argument) is ignored and the
configured result is returned; the zero-length configuration matches a
call outright. -/
theorem match_pred_truncation_witness :
    matchPredInner (σ := Unit) ([] : List PredEntry) (PyVal.int 1)
        (fun _ s => .ok (PyVal.int 9, s)) [PyVal.int 3] () = .ok (PyVal.int 1, ())
  ∧ matchPredInner (σ := Unit) [some predPos, some (fun _ => false)] (PyVal.int 1)
        (fun _ s => .ok (PyVal.int 9, s)) [PyVal.int 2] () = .ok (PyVal.int 1, ()) :=
  ⟨(match_pred_truncation (σ := Unit) ([] : List PredEntry) (PyVal.int 1)
      (fun _ s => .ok (PyVal.int 9, s)) [PyVal.int 3] ()).1,
   (match_pred_truncation (σ := Unit) [some predPos, some (fun _ => false)]
      (PyVal.int 1) (fun _ s => .ok (PyVal.int 9, s)) [PyVal.int 2] ()).2.2
        (by decide) (by simp [entryHolds, predPos])⟩

/-- C2: on every invocation with a (hashable) argument tuple, a cache hit
returns the stored result without invoking the next computation (result
and state independent of `f`, counter state unchanged); a miss invokes the
next computation once, stores its result under the tuple, and returns it;
hence a second invocation with the same tuple after a successful first one
returns the same value with no further invocation (the state, including
any instrumentation the next computation threads, is unchanged) — for an
arbitrary next computation, so in particular for one that recurses into
the same wrapped entry point and mutates the same cache. -/
theorem memoize_spec {ε : Type} (f : Comp (Dict × ε)) (args : Args)
    (s : Dict × ε) (hhash : argsHashable args = true) :
    (∀ v, dictFind s.1 args = some v → memoInner f args s = .ok (v, s))
  ∧ (dictFind s.1 args = none →
      memoInner f args s
        = match f args s with
          | .ok (v, s') => .ok (v, (dictSet s'.1 args v, s'.2))
          | .error e => .error e)
  ∧ (∀ v s₂, memoInner f args s = .ok (v, s₂) →
      memoInner f args s₂ = .ok (v, s₂)) := by
  refine ⟨fun v hv => by simp [memoInner, hhash, hv], ?_, ?_⟩
  · intro hmiss
    simp [memoInner, hhash, hmiss]
  · intro v s₂ hfirst
    rcases hfind : dictFind s.1 args with _ | w
    · rcases hf : f args s with e | ⟨w, s'⟩
      · simp [memoInner, hhash, hfind, hf] at hfirst
      · simp [memoInner, hhash, hfind, hf] at hfirst
        obtain ⟨hv, hs⟩ := hfirst
        subst hv
        simp [memoInner, hhash, ← hs, dictFind_dictSet_self]
    · simp [memoInner, hhash, hfind] at hfirst
      obtain ⟨hv, hs⟩ := hfirst
      subst hv
      simp [memoInner, hhash, ← hs, hfind]

/-- Witness for C2: a counting base computation returning `5` — the first
call on `(3,)` delegates once (counter 1) and stores, the second call
returns the stored `5` with counter still 1. -/
theorem memoize_spec_witness :
    memoInner (ε := Nat) (fun _ s => .ok (PyVal.int 5, (s.1, s.2 + 1)))
        [PyVal.int 3] ([], 0)
      = .ok (PyVal.int 5, ([([PyVal.int 3], PyVal.int 5)], 1))
  ∧ memoInner (ε := Nat) (fun _ s => .ok (PyVal.int 5, (s.1, s.2 + 1)))
        [PyVal.int 3] ([([PyVal.int 3], PyVal.int 5)], 1)
      = .ok (PyVal.int 5, ([([PyVal.int 3], PyVal.int 5)], 1)) :=
  ⟨Eq.trans
     ((memoize_spec (ε := Nat) (fun _ s => .ok (PyVal.int 5, (s.1, s.2 + 1)))
        [PyVal.int 3] ([], 0) (by decide)).2.1 rfl) rfl,
   (memoize_spec (ε := Nat) (fun _ s => .ok (PyVal.int 5, (s.1, s.2 + 1)))
        [PyVal.int 3] ([], 0) (by decide)).2.2
     (PyVal.int 5) ([([PyVal.int 3], PyVal.int 5)], 1) rfl⟩

/-- C6 counterexample: calling a memoized computation with the unhashable
tuple `([1],)` fails, but with a `TypeError` ("unhashable type"), which is
not a KeyError-class error — the claimed `KeyError`-class failure does not
occur. -/
theorem memoize_keyerror_counterexample :
    memoInner (ε := Unit) (fun _ s => .ok (PyVal.int 0, s))
        [PyVal.pylist [1]] ([], ())
      = .error (PyErr.typeError ("unhashable type"))
  ∧ (PyErr.typeError ("unhashable type")).isKeyErrorClass = false :=
  ⟨rfl, rfl⟩

/-- C6 amended: if a call's argument tuple is not usable as a cache key
(not hashable), the memoized call fails with a `TypeError` (Python's
"unhashable type" error) that propagates immediately to the caller with no
fallback — the next computation is never invoked (the result does not
depend on `f`). -/
theorem memoize_unhashable {ε : Type} (f : Comp (Dict × ε)) (args : Args)
    (s : Dict × ε) (h : argsHashable args = false) :
    memoInner f args s = .error (PyErr.typeError ("unhashable type")) := by
  simp [memoInner, h]

/-- Witness for C6 amended: the unhashable tuple `([2],)` raises the
`TypeError` even though the base computation would succeed. -/
theorem memoize_unhashable_witness :
    memoInner (ε := Unit) (fun _ s => .ok (PyVal.int 0, s))
        [PyVal.pylist [2]] ([], ())
      = .error (PyErr.typeError ("unhashable type")) :=
  memoize_unhashable (fun _ s => .ok (PyVal.int 0, s)) [PyVal.pylist [2]]
    ([], ()) (by decide)

/-- The generation loop over the instrumented next computation: every seed
tuple is passed to the next computation exactly once, in configured order
(the call trace grows by exactly the seed list), each result is stored
under its tuple, and the generated flag is untouched. -/
theorem ltGenerate_fLog_eq (g : Args → PyVal) :
    ∀ (ls : List Args) (st : LTState) (tr : List Args),
      (∀ l ∈ ls, argsHashable l = true) →
      ltGenerate (fLog g) ls (st, tr)
        = .ok ({ st with
                   table := ls.foldl (fun t l => dictSet t l (g l)) st.table },
               tr ++ ls)
  | [], st, tr, _ => by simp [ltGenerate]
  | l :: ls, st, tr, hh => by
      have hl : argsHashable l = true := hh l (by simp)
      have ih := ltGenerate_fLog_eq g ls
        { st with table := dictSet st.table l (g l) } (tr ++ [l])
        (fun x hx => hh x (by simp [hx]))
      simp only [ltGenerate, fLog, hl, if_true, ih, List.foldl_cons]
      simp

/-- C1: the Lookup Table wrapper starts not-generated with an empty table;
on the first invocation of the wrapped computation — whatever its
arguments, and for an arbitrary next computation — the flag is set to
generated before any seed entry is computed (the generation loop already
runs on the flag-set state); each configured seed tuple is then passed to
the next computation exactly once, in configured order, its result stored
under that tuple (shown by the call trace of an instrumented next
computation); and any invocation that finds the flag already set — such as
a recursive re-entry during generation — performs no generation at all. -/
theorem lookup_table_generation {ε : Type} (lookups : List Args)
    (g : Args → PyVal) (args : Args) :
    ltInit.generated = false ∧ ltInit.table = []
  ∧ (∀ (f : Comp (LTState × ε)) (st : LTState) (e : ε),
      st.generated = false →
      ltInner lookups f args (st, e)
        = match ltGenerate f lookups ({ st with generated := true }, e) with
          | .ok s₁ => ltDispatch f args s₁
          | .error err => .error err)
  ∧ (∀ (st : LTState) (tr : List Args),
      (∀ l ∈ lookups, argsHashable l = true) →
      ltGenerate (fLog g) lookups ({ st with generated := true }, tr)
        = .ok ({ st with
                   generated := true,
                   table := lookups.foldl
                     (fun t l => dictSet t l (g l)) st.table },
               tr ++ lookups))
  ∧ (∀ (f : Comp (LTState × ε)) (st : LTState) (e : ε),
      st.generated = true →
      ltInner lookups f args (st, e) = ltDispatch f args (st, e)) := by
  refine ⟨rfl, rfl, ?_, ?_, ?_⟩
  · intro f st e hgen
    simp [ltInner, hgen]
  · intro st tr hh
    exact ltGenerate_fLog_eq g lookups { st with generated := true } tr hh
  · intro f st e hgen
    simp [ltInner, hgen]

/-- Witness for C1: seeds `((5,), (6,))` over a constant-`7` instrumented
base computation — the first call from the initial state flips the flag,
invokes the base once per seed in order (trace `[(5,), (6,)]`), stores
both entries, and a state with the flag already set dispatches without
generating. -/
theorem lookup_table_generation_witness :
    ltInner (ε := List Args) [[PyVal.int 5], [PyVal.int 6]]
        (fLog (fun _ => PyVal.int 7)) [PyVal.int 5] (ltInit, [])
      = (match ltGenerate (fLog (fun _ => PyVal.int 7))
              [[PyVal.int 5], [PyVal.int 6]]
              ({ ltInit with generated := true }, ([] : List Args)) with
         | .ok s₁ => ltDispatch (fLog (fun _ => PyVal.int 7)) [PyVal.int 5] s₁
         | .error err => .error err)
  ∧ ltGenerate (fLog (fun _ => PyVal.int 7)) [[PyVal.int 5], [PyVal.int 6]]
        ({ ltInit with generated := true }, ([] : List Args))
      = .ok ({ table := [([PyVal.int 5], PyVal.int 7), ([PyVal.int 6], PyVal.int 7)],
               generated := true },
             [[PyVal.int 5], [PyVal.int 6]])
  ∧ ltInner (ε := List Args) [[PyVal.int 5], [PyVal.int 6]]
        (fLog (fun _ => PyVal.int 7)) [PyVal.int 5]
        ({ table := [], generated := true }, [])
      = ltDispatch (fLog (fun _ => PyVal.int 7)) [PyVal.int 5]
          ({ table := [], generated := true }, []) := by
  have h := lookup_table_generation (ε := List Args)
    [[PyVal.int 5], [PyVal.int 6]] (fun _ => PyVal.int 7) [PyVal.int 5]
  refine ⟨h.2.2.1 (fLog (fun _ => PyVal.int 7)) ltInit [] rfl, ?_, ?_⟩
  · have := h.2.2.2.1 ltInit [] (by decide)
    simpa using this
  · exact h.2.2.2.2 (fLog (fun _ => PyVal.int 7))
      { table := [], generated := true } [] rfl

/-- C8: once generated, a call whose argument tuple is a key of the table
returns the stored result without delegating (result and state independent
of the next computation, state unchanged); a call whose tuple is absent
delegates to the next computation with the same arguments and returns
exactly its result — and with a base next computation the table (indeed
the whole wrapper state) is unchanged by the miss, so every entry keeps
its value. -/
theorem lookup_table_hit_miss {ε : Type} (lookups : List Args)
    (g : Args → PyVal) (st : LTState) (args : Args)
    (hgen : st.generated = true) (hhash : argsHashable args = true) :
    (∀ (f : Comp (LTState × ε)) (e : ε) (v : PyVal),
      dictFind st.table args = some v →
      ltInner lookups f args (st, e) = .ok (v, (st, e)))
  ∧ (∀ (f : Comp (LTState × ε)) (e : ε),
      dictFind st.table args = none →
      ltInner lookups f args (st, e) = f args (st, e))
  ∧ (∀ (tr : List Args),
      dictFind st.table args = none →
      ltInner lookups (fLog g) args (st, tr)
        = .ok (g args, (st, tr ++ [args]))) := by
  refine ⟨fun f e v hv => ?_, fun f e hmiss => ?_, fun tr hmiss => ?_⟩
  · simp [ltInner, ltDispatch, hgen, hhash, hv]
  · simp [ltInner, ltDispatch, hgen, hhash, hmiss]
  · simp [ltInner, ltDispatch, fLog, hgen, hhash, hmiss]

/-- Witness for C8: with the generated table `{(5,): 7}`, the call `(5,)`
returns the stored `7` with the state untouched, and the call `(3,)`
delegates to the instrumented base computation (returning `9`, trace
`[(3,)]`) leaving the table unchanged. -/
theorem lookup_table_hit_miss_witness :
    ltInner (ε := List Args) [[PyVal.int 5]] (fLog (fun _ => PyVal.int 9))
        [PyVal.int 5]
        ({ table := [([PyVal.int 5], PyVal.int 7)], generated := true }, [])
      = .ok (PyVal.int 7,
          ({ table := [([PyVal.int 5], PyVal.int 7)], generated := true }, []))
  ∧ ltInner (ε := List Args) [[PyVal.int 5]] (fLog (fun _ => PyVal.int 9))
        [PyVal.int 3]
        ({ table := [([PyVal.int 5], PyVal.int 7)], generated := true }, [])
      = .ok (PyVal.int 9,
          ({ table := [([PyVal.int 5], PyVal.int 7)], generated := true },
           [[PyVal.int 3]])) :=
  ⟨(lookup_table_hit_miss (ε := List Args) [[PyVal.int 5]]
      (fun _ => PyVal.int 9)
      { table := [([PyVal.int 5], PyVal.int 7)], generated := true }
      [PyVal.int 5] rfl (by decide)).1
        (fLog (fun _ => PyVal.int 9)) [] (PyVal.int 7) rfl,
   (lookup_table_hit_miss (ε := List Args) [[PyVal.int 5]]
      (fun _ => PyVal.int 9)
      { table := [([PyVal.int 5], PyVal.int 7)], generated := true }
      [PyVal.int 3] rfl (by decide)).2.2 [] rfl⟩

/-- C9: the fully decorated `fib_match` — Literal Matcher rules
`(0,) -> 1` and `(1,) -> 1` around the body summing the wrapped entry
point at `n-1` and `n-2` (with the source's contracts on top) — returns
`89` on the call `fib_match (10)`. -/
theorem fib_match_ten :
    fibMatch 12 [PyVal.int 10] () = .ok (PyVal.int 89, ()) := rfl

end Funk
